import Mathlib

/-!
Verification of the transcode-worker agent control loop.

The definitions below are a shallow embedding of the Go sources of the
repository (the unified-sync variant that the specification canonicalizes):
`cmd/worker/main.go` (sync loop, path resolution, executor, finalization),
`internal/client` (orchestrator client), `internal/transcoder` / the
`FFmpegTranscoder` (argument building, progress parsing) and `pkg/models`
(job specification and payloads).  Go standard-library string and path
functions used by that code (`strings.TrimPrefix`, `path/filepath.Clean`,
`Join`, `IsAbs` on Unix) are modelled faithfully on `List Char`.
-/

namespace TranscodeWorker

/-! ## Models of the Go standard library string/path functions -/

/-- Model of `strings.HasPrefix pre s` reading: `listPre pre s`. -/
def listPre : List Char → List Char → Bool
  | [], _ => true
  | _ :: _, [] => false
  | a :: as, b :: bs => a == b && listPre as bs

/-- Model of `strings.TrimPrefix(s, pre)`: drop `pre` from the front of `s`
when it is present, otherwise return `s` unchanged. -/
def goTrimPre (s pre : String) : String :=
  if listPre pre.data s.data then String.mk (s.data.drop pre.data.length) else s

/-- Split a character list at `'/'` separators (the component decomposition
performed lexically by Go's `path.Clean`). -/
def splitSlash : List Char → List (List Char)
  | [] => [[]]
  | c :: rest =>
    if c = '/' then [] :: splitSlash rest
    else
      match splitSlash rest with
      | [] => [[c]]
      | g :: gs => (c :: g) :: gs

/-- Join path components back with `'/'` separators. -/
def joinSlash : List (List Char) → List Char
  | [] => []
  | [c] => c
  | c :: d :: rest => c ++ '/' :: joinSlash (d :: rest)

/-- The `..`-elimination pass of Go's `path.Clean`: components are processed
left to right; `..` pops the previous component, is dropped at the root of a
rooted path, and is kept at the front of a relative path.  `acc` holds the
already-emitted components in reverse order. -/
def elimDotDot (rooted : Bool) : List (List Char) → List (List Char) → List (List Char)
  | acc, [] => acc.reverse
  | acc, c :: rest =>
    if c = ['.', '.'] then
      match acc with
      | [] => if rooted then elimDotDot rooted [] rest else elimDotDot rooted [['.', '.']] rest
      | a :: as =>
        if a = ['.', '.'] then elimDotDot rooted (c :: acc) rest
        else elimDotDot rooted as rest
    else elimDotDot rooted (c :: acc) rest

/-- The non-empty, non-`"."` components of a path. -/
def cleanComps (l : List Char) : List (List Char) :=
  (splitSlash l).filter (fun g => g ≠ [] ∧ g ≠ ['.'])

/-- Model of Go's `path.Clean` (and hence `path/filepath.Clean` on Unix):
purely lexical normalization that drops empty and `.` components, resolves
`..` against earlier components, keeps a leading `/`, and returns `"."` for
an empty result on a relative path. -/
def goClean (p : String) : String :=
  match p.data with
  | [] => "."
  | c :: cs =>
    if c = '/' then
      String.mk ('/' :: joinSlash (elimDotDot true [] (cleanComps (c :: cs))))
    else
      let ds := elimDotDot false [] (cleanComps (c :: cs))
      if ds = [] then "." else String.mk (joinSlash ds)

/-- Model of `path/filepath.IsAbs` on Unix: `strings.HasPrefix(path, "/")`. -/
def goIsAbs (p : String) : Bool :=
  listPre ['/'] p.data

/-- Model of `path/filepath.Join(a, b)` on Unix: skip empty elements, join
the rest with `'/'`, and `Clean` the result. -/
def goJoin (a b : String) : String :=
  if a = "" then (if b = "" then "" else goClean b) else goClean (a ++ "/" ++ b)

/-! ## cmd/worker/main.go: resolveNASPath -/

/-- `resolveNASPath` from `cmd/worker/main.go`: absolute paths are returned
as-is; a relative path is cleaned, stripped of a leading separator and
joined under the configured NAS mount path. -/
def resolveNASPath (nasMountPath p : String) : String :=
  if goIsAbs p then p
  else goJoin nasMountPath (goTrimPre (goClean p) "/")

/-! ### Lemmas about the path model -/

lemma data_string_append (a b : String) : (a ++ b).data = a.data ++ b.data := rfl

lemma goIsAbs_of_slash_head (p : String) (t : List Char) (h : p.data = '/' :: t) :
    goIsAbs p = true := by
  unfold goIsAbs
  rw [h]
  simp [listPre]

/-- `goClean` of a rooted path is rooted. -/
lemma goIsAbs_goClean (p : String) (t : List Char) (h : p.data = '/' :: t) :
    goIsAbs (goClean p) = true := by
  unfold goClean
  rw [h]
  simp [goIsAbs, listPre]

/-- `goJoin` under an absolute first argument yields an absolute path. -/
lemma goIsAbs_goJoin (a b : String) (h : goIsAbs a = true) :
    goIsAbs (goJoin a b) = true := by
  unfold goIsAbs at h
  rcases hd : a.data with _ | ⟨c, cs⟩
  · rw [hd] at h; simp [listPre] at h
  · rw [hd] at h
    simp only [listPre, Bool.and_eq_true, beq_iff_eq] at h
    have hc : c = '/' := h.1.symm
    subst hc
    have hne : a ≠ "" := by
      intro hcontra
      rw [hcontra] at hd
      exact (List.cons_ne_nil _ _) hd.symm
    unfold goJoin
    rw [if_neg hne]
    refine goIsAbs_goClean _ (cs ++ '/' :: b.data) ?_
    rw [data_string_append, data_string_append, hd]
    show '/' :: cs ++ ['/'] ++ b.data = '/' :: (cs ++ '/' :: b.data)
    simp

/-- Claim C10 key fact: resolving an already-absolute path is the identity. -/
lemma resolveNASPath_abs (nas p : String) (h : goIsAbs p = true) :
    resolveNASPath nas p = p := by
  unfold resolveNASPath
  rw [if_pos h]

/-- When the NAS mount path is absolute, the result of `resolveNASPath` is
always absolute. -/
lemma goIsAbs_resolveNASPath (nas p : String) (h : goIsAbs nas = true) :
    goIsAbs (resolveNASPath nas p) = true := by
  unfold resolveNASPath
  by_cases hp : goIsAbs p = true
  · rw [if_pos hp]; exact hp
  · rw [if_neg hp]
    exact goIsAbs_goJoin _ _ h

/-- C10: Path resolution is the identity on absolute paths, and when the
configured NAS mount path is absolute, `resolveNASPath` is idempotent. -/
theorem resolveNASPath_id_abs_and_idem (nas p : String) :
    (goIsAbs p = true → resolveNASPath nas p = p) ∧
    (goIsAbs nas = true →
      resolveNASPath nas (resolveNASPath nas p) = resolveNASPath nas p) := by
  constructor
  · intro h; exact resolveNASPath_abs nas p h
  · intro hnas
    exact resolveNASPath_abs nas _ (goIsAbs_resolveNASPath nas p hnas)

/-- Witness for C10 at concrete inputs: mount `/mnt/nas`, an absolute path
and a relative path. -/
theorem resolveNASPath_id_abs_and_idem_witness :
    resolveNASPath "/mnt/nas" "/movies/a.mkv" = "/movies/a.mkv" ∧
    resolveNASPath "/mnt/nas" (resolveNASPath "/mnt/nas" "movies/a.mkv") =
      resolveNASPath "/mnt/nas" "movies/a.mkv" :=
  ⟨(resolveNASPath_id_abs_and_idem "/mnt/nas" "/movies/a.mkv").1 (by decide),
   (resolveNASPath_id_abs_and_idem "/mnt/nas" "movies/a.mkv").2 (by decide)⟩

/-! ## pkg/models: the canonical (unified-sync) data model -/

/-- `models.HardwareStats`: live host-load snapshot. -/
structure HardwareStats where
  cpuPercent : ℚ
  ramPercent : ℚ
  isBusy : Bool
  deriving DecidableEq

/-- `models.InputSpec`. -/
structure InputSpec where
  sourceURL : String
  format : String
  deriving DecidableEq

/-- `models.OutputSpec`: one rendition.  Go zero values (absent JSON fields)
are the empty string. -/
structure OutputSpec where
  resolution : String
  bitrate : String
  codec : String
  destPath : String
  audioCodec : String
  audioBitrate : String
  deriving DecidableEq

/-- `models.HLSSettingsSpec`. -/
structure HLSSettingsSpec where
  masterPlaylistName : String
  segmentTime : Int
  deriving DecidableEq

/-- `models.AudioConfigSpec`: global audio settings. -/
structure AudioConfigSpec where
  codec : String
  bitrate : String
  deriving DecidableEq

/-- `models.JobSpec` (canonical variant used by the unified sync loop). -/
structure JobSpec where
  jobID : String
  movieID : String
  input : InputSpec
  outputBase : String
  outputs : List OutputSpec
  hlsSettings : HLSSettingsSpec
  audioConfig : AudioConfigSpec
  deriving DecidableEq

/-- `JobSpec.GetInputSource`. -/
def JobSpec.getInputSource (j : JobSpec) : String :=
  j.input.sourceURL

/-- `JobSpec.SetInputSource`. -/
def JobSpec.setInputSource (j : JobSpec) (p : String) : JobSpec :=
  { j with input := { j.input with sourceURL := p } }

/-- `JobSpec.GetSegmentTime`: configured segment time, default 6 seconds. -/
def JobSpec.getSegmentTime (j : JobSpec) : Int :=
  if j.hlsSettings.segmentTime > 0 then j.hlsSettings.segmentTime else 6

/-- `JobSpec.GetAudioCodec(output)`: per-rendition override if non-empty,
else the job's global audio config if non-empty, else `"aac"`.  The Go
receiver takes a possibly-nil `*OutputSpec`, modelled as `Option`. -/
def JobSpec.getAudioCodec (j : JobSpec) (output : Option OutputSpec) : String :=
  match output with
  | some o =>
    if o.audioCodec ≠ "" then o.audioCodec
    else if j.audioConfig.codec ≠ "" then j.audioConfig.codec
    else "aac"
  | none =>
    if j.audioConfig.codec ≠ "" then j.audioConfig.codec
    else "aac"

/-- `JobSpec.GetAudioBitrate(output)`: same precedence with default `"128k"`. -/
def JobSpec.getAudioBitrate (j : JobSpec) (output : Option OutputSpec) : String :=
  match output with
  | some o =>
    if o.audioBitrate ≠ "" then o.audioBitrate
    else if j.audioConfig.bitrate ≠ "" then j.audioConfig.bitrate
    else "128k"
  | none =>
    if j.audioConfig.bitrate ≠ "" then j.audioConfig.bitrate
    else "128k"

/-- `JobSpec.GetMasterPlaylistName`: configured name, default `"index.m3u8"`. -/
def JobSpec.getMasterPlaylistName (j : JobSpec) : String :=
  if j.hlsSettings.masterPlaylistName ≠ "" then j.hlsSettings.masterPlaylistName
  else "index.m3u8"

/-- A concrete job used by the closed witness theorems. -/
def sampleJob : JobSpec :=
  { jobID := "job-42"
    movieID := "movie-7"
    input := { sourceURL := "movies/sample.mkv", format := "mkv" }
    outputBase := ""
    outputs := [{ resolution := "720p", bitrate := "1500k", codec := "libx264",
                  destPath := "/mnt/nas/hls/sample/720p_1500k",
                  audioCodec := "", audioBitrate := "" }]
    hlsSettings := { masterPlaylistName := "", segmentTime := 0 }
    audioConfig := { codec := "", bitrate := "" } }

/-! ## cmd/worker/main.go: performSync status derivation (C1) -/

/-- Status derivation performed at the top of `performSync`: start from
`IDLE` with an empty job id; a job in the slot forces `BUSY` with that job's
id; otherwise a busy host-load snapshot forces `BUSY` with an empty id. -/
def deriveSyncStatus (currentJob : Option JobSpec) (stats : HardwareStats) :
    String × String :=
  match currentJob with
  | some job => ("BUSY", job.jobID)
  | none => if stats.isBusy then ("BUSY", "") else ("IDLE", "")

/-- C1: at every sync tick the status in the SyncPayload is derived exactly
as the spec states, and `current_job_id` is non-empty iff the status is BUSY
and a job is in the slot (job ids being non-empty). -/
theorem performSync_status_derivation (slot : Option JobSpec) (stats : HardwareStats)
    (hid : ∀ j, slot = some j → j.jobID ≠ "") :
    (∀ j, slot = some j →
      (deriveSyncStatus slot stats).1 = "BUSY" ∧
      (deriveSyncStatus slot stats).2 = j.jobID) ∧
    (slot = none → stats.isBusy = true →
      (deriveSyncStatus slot stats).1 = "BUSY" ∧ (deriveSyncStatus slot stats).2 = "") ∧
    (slot = none → stats.isBusy = false →
      (deriveSyncStatus slot stats).1 = "IDLE" ∧ (deriveSyncStatus slot stats).2 = "") ∧
    ((deriveSyncStatus slot stats).1 = "IDLE" ∨ (deriveSyncStatus slot stats).1 = "BUSY") ∧
    ((deriveSyncStatus slot stats).2 ≠ "" ↔
      ((deriveSyncStatus slot stats).1 = "BUSY" ∧ slot.isSome)) := by
  cases slot with
  | some j =>
    refine ⟨?_, ?_, ?_, ?_, ?_⟩
    · intro j' hj'
      cases hj'
      exact ⟨rfl, rfl⟩
    · intro h; cases h
    · intro h; cases h
    · right; rfl
    · exact ⟨fun _ => ⟨rfl, rfl⟩, fun _ => hid j rfl⟩
  | none =>
    cases hb : stats.isBusy with
    | true =>
      refine ⟨?_, ?_, ?_, ?_, ?_⟩
      · intro j' hj'; cases hj'
      · intro _ _; simp [deriveSyncStatus, hb]
      · intro _ h; simp at h
      · right; simp [deriveSyncStatus, hb]
      · simp [deriveSyncStatus, hb]
    | false =>
      refine ⟨?_, ?_, ?_, ?_, ?_⟩
      · intro j' hj'; cases hj'
      · intro _ h; simp at h
      · intro _ _; simp [deriveSyncStatus, hb]
      · left; simp [deriveSyncStatus, hb]
      · simp [deriveSyncStatus, hb]

/-- Witness for C1 at a concrete occupied slot. -/
theorem performSync_status_derivation_witness :
    (deriveSyncStatus (some sampleJob) ⟨50, 40, false⟩).2 ≠ "" ↔
      ((deriveSyncStatus (some sampleJob) ⟨50, 40, false⟩).1 = "BUSY" ∧
        (some sampleJob).isSome) :=
  (performSync_status_derivation (some sampleJob) ⟨50, 40, false⟩
    (fun j h => by cases h; decide)).2.2.2.2

/-! ## internal/client: doRequest status handling (C4) -/

/-- The observable outcome of the HTTP round trip inside `doRequest`: either
`httpClient.Do` returned an error (connection failure, or the retryable
client gave up), or a response with a status code arrived. -/
inductive HTTPResult where
  | transportErr (msg : String)
  | response (statusCode : Nat)
  deriving DecidableEq

/-- The error taxonomy of `doRequest` as seen by callers. -/
inductive ReqError where
  | transport (msg : String)
  | stateLoss (statusCode : Nat)
  | badStatus (statusCode : Nat)
  | decodeErr
  deriving DecidableEq

/-- `doRequest` from `internal/client` (part_004 variant): a 404 response is
turned into `*OrchestratorStateError`; any other status `>= 400` into a
generic formatted error; otherwise the body is decoded when requested. -/
def doRequestOutcome (result : HTTPResult) (wantResponse decodeOk : Bool) :
    Option ReqError :=
  match result with
  | .transportErr m => some (.transport ("request failed: " ++ m))
  | .response code =>
    if code = 404 then some (.stateLoss code)
    else if 400 ≤ code then some (.badStatus code)
    else if wantResponse && !(code == 204) && !decodeOk then some .decodeErr
    else none

/-- Does an outcome surface the distinct orchestrator-state-loss error? -/
def isStateLoss : Option ReqError → Bool
  | some (.stateLoss _) => true
  | _ => false

/-- C4: a 404 response is surfaced as the distinct `OrchestratorStateError`
(and only a 404 ever is), while every other response status `>= 400` is
surfaced as a generic error, never as state loss. -/
theorem doRequest_404_state_loss (code : Nat) (wantResponse decodeOk : Bool) :
    (doRequestOutcome (.response 404) wantResponse decodeOk = some (.stateLoss 404)) ∧
    (isStateLoss (doRequestOutcome (.response code) wantResponse decodeOk) =
      (code == 404)) ∧
    (400 ≤ code → code ≠ 404 →
      doRequestOutcome (.response code) wantResponse decodeOk =
        some (.badStatus code)) ∧
    (∀ m, isStateLoss (doRequestOutcome (.transportErr m) wantResponse decodeOk) =
      false) := by
  refine ⟨rfl, ?_, ?_, fun m => rfl⟩
  · by_cases h4 : code = 404
    · subst h4; rfl
    · simp only [doRequestOutcome, if_neg h4, beq_iff_eq]
      split_ifs <;> simp [isStateLoss, h4]
  · intro hge h4
    simp only [doRequestOutcome, if_neg h4]
    rw [if_pos hge]

/-- Witness for C4 at concrete status codes 404 and 500. -/
theorem doRequest_404_state_loss_witness :
    doRequestOutcome (.response 500) true true = some (.badStatus 500) ∧
    doRequestOutcome (.response 404) true true = some (.stateLoss 404) :=
  ⟨(doRequest_404_state_loss 500 true true).2.2.1 (by decide) (by decide),
   (doRequest_404_state_loss 500 true true).1⟩

/-! ## cmd/worker/main.go: finalizeJob (C5) and executeJob (C3) -/

/-- `models.JobResultPayload` as filled in by `finalizeJob`. -/
structure JobResultPayload where
  status : String
  manifestURL : String
  errorMsg : String
  totalTimeMS : Int
  deriving DecidableEq

/-- The payload construction of `finalizeJob`: a driver error yields a
`FAILED` payload carrying the error text; success yields `COMPLETED` and,
when at least one rendition exists, a manifest URL built by stripping the
NAS mount and a leading separator from the first output's dest path and
appending the master playlist name. -/
def finalizePayload (nasMountPath : String) (job : JobSpec) (jobErr : Option String)
    (durationMS : Int) : JobResultPayload :=
  match jobErr with
  | some e =>
    { status := "FAILED", manifestURL := "", errorMsg := e, totalTimeMS := durationMS }
  | none =>
    { status := "COMPLETED"
      manifestURL :=
        match job.outputs with
        | [] => ""
        | o :: _ =>
          "/" ++ goTrimPre (goTrimPre o.destPath nasMountPath) "/" ++ "/" ++
            job.getMasterPlaylistName
      errorMsg := ""
      totalTimeMS := durationMS }

/-- The per-rendition loop of the driver's `Execute`: renditions are
processed in declared order and the first error aborts the job.  `f` stands
for the transcode-and-commit outcome of a single rendition. -/
def transcodeLoop (outputs : List OutputSpec) (f : OutputSpec → Option String) :
    Option String :=
  match outputs with
  | [] => none
  | o :: rest =>
    match f o with
    | some e => some e
    | none => transcodeLoop rest f

/-- The driver's `Execute` result after the input probe: a probe failure is
fatal, otherwise the rendition loop decides the outcome. -/
def driverExecuteResult (probeRes : Except String ℚ) (outputs : List OutputSpec)
    (f : OutputSpec → Option String) : Option String :=
  match probeRes with
  | .error e => some ("failed to get media duration: " ++ e)
  | .ok _ => transcodeLoop outputs f

/-- C5: a job finalized as COMPLETED with at least one rendition gets a
manifest URL of `/<first dest path relative to the NAS mount, leading
separator removed>/<master playlist name, default index.m3u8>`; with zero
renditions the rendition loop is a successful no-op and the manifest URL is
empty. -/
theorem finalize_manifest_url (nas : String) (job : JobSpec) (dur : Int) :
    ((finalizePayload nas job none dur).status = "COMPLETED") ∧
    (job.outputs = [] → (finalizePayload nas job none dur).manifestURL = "") ∧
    (∀ o rest, job.outputs = o :: rest →
      (finalizePayload nas job none dur).manifestURL =
        "/" ++ goTrimPre (goTrimPre o.destPath nas) "/" ++ "/" ++
          (if job.hlsSettings.masterPlaylistName ≠ "" then
            job.hlsSettings.masterPlaylistName else "index.m3u8")) ∧
    (job.outputs = [] → ∀ d f, driverExecuteResult (.ok d) job.outputs f = none) := by
  refine ⟨rfl, ?_, ?_, ?_⟩
  · intro h
    simp [finalizePayload, h]
  · intro o rest h
    simp [finalizePayload, h, JobSpec.getMasterPlaylistName]
  · intro h d f
    simp [driverExecuteResult, h, transcodeLoop]

/-- Witness for C5: a concrete completed job with one rendition, and a
concrete job with zero renditions. -/
theorem finalize_manifest_url_witness :
    (finalizePayload "/mnt/nas" sampleJob none 1234).manifestURL =
      "/hls/sample/720p_1500k/index.m3u8" ∧
    (finalizePayload "/mnt/nas" { sampleJob with outputs := [] } none 77).manifestURL
      = "" := by
  constructor
  · have h := (finalize_manifest_url "/mnt/nas" sampleJob 1234).2.2.1
      { resolution := "720p", bitrate := "1500k", codec := "libx264",
        destPath := "/mnt/nas/hls/sample/720p_1500k",
        audioCodec := "", audioBitrate := "" }
      [] rfl
    rw [h]
    decide
  · exact (finalize_manifest_url "/mnt/nas" { sampleJob with outputs := [] } 77).2.1 rfl

/-- The observable events of one `executeJob` run, in program order. -/
inductive ExecEvent where
  | lock
  | unlock
  | setSlot (j : Option JobSpec)
  | closeProgressCh
  | finalize (p : JobResultPayload)
  deriving DecidableEq

/-- `executeJob` from `cmd/worker/main.go`: fill the slot under the mutex,
run the driver (whose outcome — success, failure or cancellation — is the
`transcodeErr` parameter), close the progress channel, finalize exactly
once, and clear the slot under the mutex in the deferred block. -/
def executeJobTrace (nas : String) (job : JobSpec) (transcodeErr : Option String)
    (durationMS : Int) : List ExecEvent :=
  [.lock, .setSlot (some job), .unlock,
   .closeProgressCh,
   .finalize (finalizePayload nas job transcodeErr durationMS),
   .lock, .setSlot none, .unlock]

/-- The finalize calls present in a trace. -/
def finalizeEvents (tr : List ExecEvent) : List JobResultPayload :=
  tr.filterMap fun e => match e with | .finalize p => some p | _ => none

/-- The writes to the current-job slot present in a trace. -/
def slotWrites (tr : List ExecEvent) : List (Option JobSpec) :=
  tr.filterMap fun e => match e with | .setSlot j => some j | _ => none

/-- Checks that the mutex discipline is respected: locks are balanced and
every slot write happens while the mutex is held. -/
def guardedFrom (locked : Bool) : List ExecEvent → Bool
  | [] => true
  | .lock :: rest => !locked && guardedFrom true rest
  | .unlock :: rest => locked && guardedFrom false rest
  | .setSlot _ :: rest => locked && guardedFrom locked rest
  | .closeProgressCh :: rest => guardedFrom locked rest
  | .finalize _ :: rest => guardedFrom locked rest

/-- C3: every executed job produces exactly one Finalize call, that call
carries a terminal status (COMPLETED or FAILED), every slot mutation is
performed under the slot mutex, and the last slot write on every exit path
(success, failure or cancellation) clears the slot. -/
theorem executeJob_finalize_once_slot_cleared (nas : String) (job : JobSpec)
    (transcodeErr : Option String) (dur : Int) :
    (finalizeEvents (executeJobTrace nas job transcodeErr dur)).length = 1 ∧
    ((finalizeEvents (executeJobTrace nas job transcodeErr dur)).all
      (fun p => p.status == "COMPLETED" || p.status == "FAILED")) = true ∧
    guardedFrom false (executeJobTrace nas job transcodeErr dur) = true ∧
    (slotWrites (executeJobTrace nas job transcodeErr dur)).getLast? = some none := by
  cases transcodeErr with
  | none =>
    refine ⟨rfl, ?_, rfl, rfl⟩
    simp [executeJobTrace, finalizeEvents, finalizePayload, List.all]
  | some e =>
    refine ⟨rfl, ?_, rfl, rfl⟩
    simp [executeJobTrace, finalizeEvents, finalizePayload, List.all]

/-! ## FFmpegTranscoder: getScaleFilter and the rendition argument vector
(C6, C7) -/

/-- `getScaleFilter` from the transcoder: the resolution-tag lookup.  Note
the Go switch has the case `"2160p", "4K"`. -/
def getScaleFilter (resolution : String) : String :=
  if resolution = "2160p" ∨ resolution = "4K" then "scale=-2:2160"
  else if resolution = "1080p" then "scale=-2:1080"
  else if resolution = "720p" then "scale=-2:720"
  else if resolution = "480p" then "scale=-2:480"
  else if resolution = "360p" then "scale=-2:360"
  else ""

/-- The ffmpeg argument vector built by `transcodeRendition` for one
rendition: input, video codec/bitrate, the optional scale filter, audio
codec/bitrate, and the HLS muxer settings.  The Go call sites
`job.GetAudioCodec()` / `job.GetAudioBitrate()` pass no rendition to the
accessors, so the audio settings are resolved without any per-rendition
override (`none`). -/
def buildRenditionArgs (job : JobSpec) (output : OutputSpec) (outputDir : String) :
    List String :=
  (if output.resolution ≠ "" then
    (if getScaleFilter output.resolution ≠ "" then
      ["-i", job.getInputSource, "-c:v", output.codec, "-b:v", output.bitrate,
       "-vf", getScaleFilter output.resolution]
     else
      ["-i", job.getInputSource, "-c:v", output.codec, "-b:v", output.bitrate])
   else
    ["-i", job.getInputSource, "-c:v", output.codec, "-b:v", output.bitrate])
  ++ ["-c:a", job.getAudioCodec none, "-b:a", job.getAudioBitrate none,
      "-f", "hls",
      "-hls_time", toString job.getSegmentTime,
      "-hls_playlist_type", "vod",
      "-hls_segment_filename", goJoin outputDir "segment_%03d.ts",
      goJoin outputDir "index.m3u8"]

/-- The resolution-tag table the code actually implements: the five spec
tags plus the `"4K"` alias. -/
def specScaleLookup (tag : String) : Option String :=
  if tag = "2160p" then some "2160"
  else if tag = "4K" then some "2160"
  else if tag = "1080p" then some "1080"
  else if tag = "720p" then some "720"
  else if tag = "480p" then some "480"
  else if tag = "360p" then some "360"
  else none

/-- A rendition with the `"4K"` tag, not among the five tags the claim
lists. -/
def sampleOut4K : OutputSpec :=
  { resolution := "4K", bitrate := "8000k", codec := "libx264",
    destPath := "/mnt/nas/hls/sample/4K_8000k", audioCodec := "", audioBitrate := "" }

/-- C6 counterexample: the claim says the scale filter appears exactly for
the tags 2160p/1080p/720p/480p/360p, but the `"4K"` tag — not among them —
also yields `scale=-2:2160` in the argument vector. -/
theorem buildArgs_scale_4K_counterexample :
    ("4K" ∉ ["2160p", "1080p", "720p", "480p", "360p"]) ∧
    "-vf" ∈ buildRenditionArgs sampleJob sampleOut4K "/tmp/transcode/job-42/4K_8000k" ∧
    "scale=-2:2160" ∈
      buildRenditionArgs sampleJob sampleOut4K "/tmp/transcode/job-42/4K_8000k" := by
  decide

/-- C6 (amended): the scale filter `scale=-2:<N>` appears (as the pair at
positions 6 and 7 of the argument vector) exactly when the resolution tag is
one of 2160p, 4K, 1080p, 720p, 480p, 360p, with 4K also mapping to 2160;
for every other tag the filter is omitted and the vector keeps its base
length. -/
theorem buildArgs_scale_filter (job : JobSpec) (o : OutputSpec) (dir : String) :
    (∀ n, specScaleLookup o.resolution = some n →
      ((buildRenditionArgs job o dir).length = 21 ∧
       (buildRenditionArgs job o dir)[6]? = some "-vf" ∧
       (buildRenditionArgs job o dir)[7]? = some ("scale=-2:" ++ n))) ∧
    (specScaleLookup o.resolution = none →
      (getScaleFilter o.resolution = "" ∧
       (buildRenditionArgs job o dir).length = 19)) := by
  obtain ⟨res, br, cod, dp, ac, ab⟩ := o
  constructor
  · intro n hn
    unfold specScaleLookup at hn
    dsimp only at hn
    split_ifs at hn with h1 h2 h3 h4 h5 h6
    · injection hn with hn'; subst hn'; subst h1; exact ⟨rfl, rfl, rfl⟩
    · injection hn with hn'; subst hn'; subst h2; exact ⟨rfl, rfl, rfl⟩
    · injection hn with hn'; subst hn'; subst h3; exact ⟨rfl, rfl, rfl⟩
    · injection hn with hn'; subst hn'; subst h4; exact ⟨rfl, rfl, rfl⟩
    · injection hn with hn'; subst hn'; subst h5; exact ⟨rfl, rfl, rfl⟩
    · injection hn with hn'; subst hn'; subst h6; exact ⟨rfl, rfl, rfl⟩
  · intro hn
    unfold specScaleLookup at hn
    dsimp only at hn
    split_ifs at hn with h1 h2 h3 h4 h5 h6
    have hscale : getScaleFilter res = "" := by
      unfold getScaleFilter
      rw [if_neg (not_or.mpr ⟨h1, h2⟩), if_neg h3, if_neg h4, if_neg h5, if_neg h6]
    refine ⟨hscale, ?_⟩
    unfold buildRenditionArgs
    dsimp only
    rw [hscale]
    split_ifs with hres hsc
    · exact absurd rfl hsc
    · rfl
    · rfl

/-- Witness for C6 (amended) at the `"4K"` tag and at an unknown tag. -/
theorem buildArgs_scale_filter_witness :
    ((buildRenditionArgs sampleJob sampleOut4K "/tmp/d").length = 21 ∧
     (buildRenditionArgs sampleJob sampleOut4K "/tmp/d")[6]? = some "-vf" ∧
     (buildRenditionArgs sampleJob sampleOut4K "/tmp/d")[7]? =
       some ("scale=-2:" ++ "2160")) ∧
    (buildRenditionArgs sampleJob
      { sampleOut4K with resolution := "999x" } "/tmp/d").length = 19 :=
  ⟨(buildArgs_scale_filter sampleJob sampleOut4K "/tmp/d").1 "2160" (by decide),
   ((buildArgs_scale_filter sampleJob
      { sampleOut4K with resolution := "999x" } "/tmp/d").2 (by decide)).2⟩

/-- A rendition carrying per-rendition audio overrides (and an unknown
resolution tag so the argument positions are stable). -/
def sampleOutOverride : OutputSpec :=
  { resolution := "999x", bitrate := "2000k", codec := "libx264",
    destPath := "/mnt/nas/hls/sample/999x_2000k",
    audioCodec := "mp3", audioBitrate := "256k" }

/-- C7: the accessor `GetAudioCodec`/`GetAudioBitrate` resolves the
per-rendition override, but the argument builder never passes the rendition
to it, so the vector carries the defaults `aac`/`128k` even when the
rendition overrides them (here the job has no global audio config). -/
theorem buildArgs_audio_override_ignored :
    sampleJob.getAudioCodec (some sampleOutOverride) = "mp3" ∧
    sampleJob.getAudioBitrate (some sampleOutOverride) = "256k" ∧
    (buildRenditionArgs sampleJob sampleOutOverride "/tmp/d")[7]? = some "aac" ∧
    (buildRenditionArgs sampleJob sampleOutOverride "/tmp/d")[9]? = some "128k" := by
  decide

/-! ## cmd/worker/main.go: job assignment handling in the sync tick (C2) -/

/-- `resolveJobPaths`: resolve the input source against the NAS mount, fail
when it is empty or when the resolved input does not exist on the
filesystem (`fsExists`), then resolve the output base and every rendition's
dest path.  Directory creation is modelled as always succeeding. -/
def resolveJobPathsModel (nas : String) (fsExists : String → Bool) (job : JobSpec) :
    Except String JobSpec :=
  if job.getInputSource = "" then .error "job has no input source specified"
  else
    if !(fsExists (resolveNASPath nas job.getInputSource)) then
      .error ("input file does not exist: " ++ resolveNASPath nas job.getInputSource)
    else
      let job1 := job.setInputSource (resolveNASPath nas job.getInputSource)
      let job2 :=
        if job1.outputBase ≠ "" then
          { job1 with outputBase := resolveNASPath nas job1.outputBase }
        else job1
      .ok { job2 with
            outputs := job2.outputs.map
              (fun o => { o with destPath := resolveNASPath nas o.destPath }) }

/-- What a sync tick does with an assignment (`performSync`, assignment
branch): reject when the slot is occupied; on a path-resolution error, log
and return from the tick; otherwise spawn the executor on the resolved
job. -/
inductive AssignOutcome where
  | noJob
  | rejectedBusy
  | droppedResolveError (msg : String)
  | executorSpawned (job : JobSpec)
  deriving DecidableEq

/-- The assignment branch of `performSync`. -/
def handleAssignment (nas : String) (fsExists : String → Bool)
    (slot : Option JobSpec) (assigned : Option JobSpec) : AssignOutcome :=
  match assigned with
  | none => .noJob
  | some job =>
    if slot.isSome then .rejectedBusy
    else
      match resolveJobPathsModel nas fsExists job with
      | .error msg => .droppedResolveError msg
      | .ok rjob => .executorSpawned rjob

/-- Does the outcome start the executor (and hence a transcoder
subprocess)? -/
def outcomeSpawnsExecutor : AssignOutcome → Bool
  | .executorSpawned _ => true
  | _ => false

/-- A job referencing a missing input file. -/
def absentJob : JobSpec :=
  { sampleJob with
    jobID := "job-absent",
    input := { sourceURL := "movies/absent.mkv", format := "mkv" } }

/-- C2 divergence: an assigned job whose resolved input does not exist is
dropped inside the sync tick — the resolve error (whose text does contain
"input file does not exist") is only logged, no executor (and hence no
subprocess) is started, and no Finalize call of any kind is issued, where
the claim requires an immediate FAILED finalization. -/
theorem missing_input_dropped_without_finalize :
    handleAssignment "/mnt/nas" (fun _ => false) none (some absentJob) =
      .droppedResolveError "input file does not exist: /mnt/nas/movies/absent.mkv" ∧
    outcomeSpawnsExecutor
      (handleAssignment "/mnt/nas" (fun _ => false) none (some absentJob)) = false := by
  decide

/-! ## FFmpegTranscoder: progress extraction (C8, C9)

The progress arithmetic runs on Go `float64` values; division by zero
produces signed infinities or NaN there, which is exactly what claims about
a zero total duration hinge on.  `GoF` models float64 with exact rationals
for finite values plus the IEEE special values (rounding is irrelevant to
the claims; signed zero is not modelled, the modelled code never divides by
a negative zero). -/

/-- A Go float64 value: finite (exact rational), ±infinity, or NaN. -/
inductive GoF where
  | fin (q : ℚ)
  | pinf
  | ninf
  | nan
  deriving DecidableEq

namespace GoF

/-- IEEE subtraction. -/
def sub : GoF → GoF → GoF
  | nan, _ => nan
  | _, nan => nan
  | pinf, pinf => nan
  | ninf, ninf => nan
  | pinf, _ => pinf
  | ninf, _ => ninf
  | fin _, pinf => ninf
  | fin _, ninf => pinf
  | fin a, fin b => fin (a - b)

/-- IEEE multiplication. -/
def mul : GoF → GoF → GoF
  | nan, _ => nan
  | _, nan => nan
  | fin a, fin b => fin (a * b)
  | fin a, pinf => if 0 < a then pinf else if a < 0 then ninf else nan
  | fin a, ninf => if 0 < a then ninf else if a < 0 then pinf else nan
  | pinf, fin b => if 0 < b then pinf else if b < 0 then ninf else nan
  | ninf, fin b => if 0 < b then ninf else if b < 0 then pinf else nan
  | pinf, pinf => pinf
  | pinf, ninf => ninf
  | ninf, pinf => ninf
  | ninf, ninf => pinf

/-- IEEE division (division of a non-zero finite value by zero gives a
signed infinity; `0/0` gives NaN). -/
def div : GoF → GoF → GoF
  | nan, _ => nan
  | _, nan => nan
  | fin a, fin b =>
    if b = 0 then (if 0 < a then pinf else if a < 0 then ninf else nan)
    else fin (a / b)
  | fin _, pinf => fin 0
  | fin _, ninf => fin 0
  | pinf, fin b => if b < 0 then ninf else pinf
  | ninf, fin b => if b < 0 then pinf else ninf
  | pinf, pinf => nan
  | pinf, ninf => nan
  | ninf, pinf => nan
  | ninf, ninf => nan

/-- IEEE ordered greater-than (`NaN` compares false). -/
def gt : GoF → GoF → Bool
  | nan, _ => false
  | _, nan => false
  | fin a, fin b => decide (b < a)
  | pinf, pinf => false
  | pinf, _ => true
  | ninf, _ => false
  | fin _, pinf => false
  | fin _, ninf => true

end GoF

/-- Truncation toward zero, as Go's `int(x)` conversion on a finite
float64. -/
def ratTrunc (q : ℚ) : Int :=
  if q < 0 then Int.ceil q else Int.floor q

/-- Go `int(x)` on a `GoF`; the modelled code only converts finite
values. -/
def GoF.toGoInt : GoF → Int
  | .fin q => ratTrunc q
  | _ => 0

/-- `models.JobProgress`. -/
structure JobProgress where
  percent : GoF
  fps : GoF
  eta : Int
  deriving DecidableEq

/-- The per-matched-time-line computation of `parseProgress` in the
transcoder: `currentTime = 3600·h + 60·m + s` from the time regex,
`percent = (currentTime/totalDuration)·100` capped at 100 (no lower guard,
no zero-duration guard), `fps` from the optional fps match (0 when absent),
and `eta = int((totalDuration − currentTime)/fps)` when `fps > 0` (no
clamping at 0). -/
def parseProgressSample (totalDuration : GoF) (h m : Nat) (s : ℚ)
    (fpsMatch : Option ℚ) : JobProgress :=
  let currentTime : GoF := .fin (((h * 3600 + m * 60 : Nat) : ℚ) + s)
  let pct := GoF.mul (GoF.div currentTime totalDuration) (.fin 100)
  let percent := if GoF.gt pct (.fin 100) then GoF.fin 100 else pct
  let fps : GoF := .fin (fpsMatch.getD 0)
  let eta : Int :=
    if GoF.gt fps (.fin 0) then (GoF.div (GoF.sub totalDuration currentTime) fps).toGoInt
    else 0
  { percent := percent, fps := fps, eta := eta }

/-- The send guard of the progress reporter in `cmd/worker/main.go`: an
`UpdateJobStatus` call is issued on a tick only when the last sample's
percent is `> 0`. -/
def reporterSends (p : JobProgress) : Bool :=
  GoF.gt p.percent (.fin 0)

/-- C8 divergence: with a reported total duration of 0, a matched stderr
line `time=00:00:10.00 fps=25` makes the unguarded division produce +Inf,
which the cap turns into a percent of 100 — not the claimed default of 0 —
and the reporter's `percent > 0` guard then does issue status updates. -/
theorem zero_duration_reports_full_progress :
    (parseProgressSample (.fin 0) 0 0 10 (some 25)).percent = .fin 100 ∧
    reporterSends (parseProgressSample (.fin 0) 0 0 10 (some 25)) = true := by
  norm_num [parseProgressSample, reporterSends, GoF.div, GoF.mul, GoF.gt]

/-- C9 counterexample: with total duration 10 s, a matched line
`time=00:00:20.00 fps=2` (ffmpeg reporting past the container duration)
yields `eta = int((10 − 20)/2) = −5 < 0`, refuting `eta_seconds ≥ 0` and
the claimed `max(0, ·)` formula. -/
theorem progress_eta_negative_counterexample :
    (parseProgressSample (.fin 10) 0 0 20 (some 2)).eta = -5 ∧
    (parseProgressSample (.fin 10) 0 0 20 (some 2)).eta < 0 := by
  have h5 : (parseProgressSample (.fin 10) 0 0 20 (some 2)).eta = -5 := by
    norm_num [parseProgressSample, GoF.div, GoF.mul, GoF.gt, GoF.sub, GoF.toGoInt,
      ratTrunc]
    rw [show ((-5 : ℚ)) = ((-5 : ℤ) : ℚ) by norm_num, Int.ceil_intCast]
  exact ⟨h5, by rw [h5]; norm_num⟩

/-- C9 (amended): for every sample emitted with `total_duration > 0`:
`percent ∈ [0,100]` with `percent = min(100, 100·current/total)`, `fps ≥ 0`
as parsed, and when `fps > 0` the eta is `(total − current)/fps` truncated
toward zero — which is ≥ 0 whenever `current ≤ total` but may be negative
when ffmpeg reports a time past the total duration; when no positive fps is
parsed the eta is 0. -/
theorem progress_sample_bounds (d s f : ℚ) (h m : Nat)
    (hd : 0 < d) (hs : 0 ≤ s) (hf : 0 ≤ f) :
    (∃ q, (parseProgressSample (.fin d) h m s (some f)).percent = .fin q ∧
      0 ≤ q ∧ q ≤ 100 ∧
      q = min 100 ((((h * 3600 + m * 60 : Nat) : ℚ) + s) / d * 100)) ∧
    (parseProgressSample (.fin d) h m s (some f)).fps = .fin f ∧
    (0 < f →
      (parseProgressSample (.fin d) h m s (some f)).eta =
        ratTrunc ((d - (((h * 3600 + m * 60 : Nat) : ℚ) + s)) / f)) ∧
    (f = 0 → (parseProgressSample (.fin d) h m s (some f)).eta = 0) ∧
    (0 < f → (((h * 3600 + m * 60 : Nat) : ℚ) + s) ≤ d →
      0 ≤ (parseProgressSample (.fin d) h m s (some f)).eta) := by
  have hc : (0 : ℚ) ≤ ((h * 3600 + m * 60 : Nat) : ℚ) + s :=
    add_nonneg (Nat.cast_nonneg _) hs
  set c : ℚ := ((h * 3600 + m * 60 : Nat) : ℚ) + s with hcdef
  have hdiv : GoF.div (.fin c) (.fin d) = .fin (c / d) := by
    simp [GoF.div, hd.ne']
  refine ⟨?_, rfl, ?_, ?_, ?_⟩
  · refine ⟨min 100 (c / d * 100), ?_, ?_, min_le_left _ _, rfl⟩
    · show (if GoF.gt (GoF.mul (GoF.div (.fin c) (.fin d)) (.fin 100)) (.fin 100)
          then GoF.fin 100 else GoF.mul (GoF.div (.fin c) (.fin d)) (.fin 100)) =
        .fin (min 100 (c / d * 100))
      rw [hdiv]
      show (if GoF.gt (.fin (c / d * 100)) (.fin 100) then GoF.fin 100
          else .fin (c / d * 100)) = .fin (min 100 (c / d * 100))
      by_cases hgt : (100 : ℚ) < c / d * 100
      · rw [min_eq_left hgt.le]
        simp [GoF.gt, hgt]
      · rw [min_eq_right (not_lt.1 hgt)]
        simp [GoF.gt, hgt]
    · exact le_min (by norm_num)
        (mul_nonneg (div_nonneg hc hd.le) (by norm_num))
  · intro hfpos
    show (if GoF.gt (.fin ((some f).getD 0)) (.fin 0)
        then (GoF.div (GoF.sub (.fin d) (.fin c)) (.fin ((some f).getD 0))).toGoInt
        else 0) = ratTrunc ((d - c) / f)
    simp only [Option.getD_some]
    rw [if_pos (by simp [GoF.gt, hfpos])]
    simp [GoF.sub, GoF.div, GoF.toGoInt, hfpos.ne']
  · intro hf0
    show (if GoF.gt (.fin ((some f).getD 0)) (.fin 0)
        then (GoF.div (GoF.sub (.fin d) (.fin c)) (.fin ((some f).getD 0))).toGoInt
        else 0) = 0
    simp [GoF.gt, hf0]
  · intro hfpos hcd
    have hq : (0 : ℚ) ≤ (d - c) / f := div_nonneg (by linarith) hf
    have : (parseProgressSample (.fin d) h m s (some f)).eta =
        ratTrunc ((d - c) / f) := by
      show (if GoF.gt (.fin ((some f).getD 0)) (.fin 0)
          then (GoF.div (GoF.sub (.fin d) (.fin c)) (.fin ((some f).getD 0))).toGoInt
          else 0) = ratTrunc ((d - c) / f)
      simp only [Option.getD_some]
      rw [if_pos (by simp [GoF.gt, hfpos])]
      simp [GoF.sub, GoF.div, GoF.toGoInt, hfpos.ne']
    rw [this, ratTrunc, if_neg (not_lt.2 hq)]
    exact Int.floor_nonneg.2 hq

/-- Witness for C9 (amended) at a concrete in-range sample: duration 120 s,
line `time=00:01:30.00 fps=24`. -/
theorem progress_sample_bounds_witness :
    ∃ q, (parseProgressSample (.fin 120) 0 1 30 (some 24)).percent = .fin q ∧
      0 ≤ q ∧ q ≤ 100 ∧
      q = min 100 ((((0 * 3600 + 1 * 60 : Nat) : ℚ) + 30) / 120 * 100) :=
  (progress_sample_bounds 120 30 24 0 1 (by norm_num) (by norm_num) (by norm_num)).1

end TranscodeWorker
